import Mathlib

/-!
Verification of the govcr request-filter component (`request.go`).

The Go source defines the `Request` value type, the `RequestFilter` function
type, the guard combinators `OnMethod` and `OnPath`, the built-in header
filters `RequestAddHeaderValue` and `RequestDeleteHeaderKeys`, and the chain
operations `Append`, `Add`, `Prepend` and `combined` on `RequestFilters`.

The filters lean on three pieces of the Go standard library, embedded here as
executable models:
  * `regexp` (used by `OnPath` via `regexp.MustCompile` / `Regexp.MatchString`):
    modelled as a small regular-expression engine (Brzozowski derivatives)
    over the syntax subset `literal`, `.`, `*`, `|`, `( )`, `\x` escape;
    `MatchString` is unanchored (a match may start at any position), exactly
    like Go's; compilation of an invalid pattern is reported as failure, which
    stands for the `regexp.MustCompile` abort.
  * `net/url` (`URL.String`): modelled over the fields the spec names
    (scheme, host, path, raw query) with Go's assembly rules
    `scheme:` `//host` `path` `?query` for those fields.
  * `net/http` / `net/textproto` headers: `http.Header` is a Go map from
    canonicalised MIME keys to ordered value lists.  `Header.Add` appends to
    the value list of the canonical key, `Header.Del` removes the canonical
    key.  Because a Go map is a reference type, a copy of a `Request` struct
    shares the same header map; that aliasing is modelled explicitly by a
    header store (`HeaderStore`) indexed by reference identity.
-/

namespace govcr

/-! ### Regular expressions: syntax, derivatives, unanchored matching -/

/-- Abstract syntax of the modelled `regexp` subset. -/
inductive Regex where
  | empty : Regex
  | eps : Regex
  | char : Char → Regex
  | any : Regex
  | cat : Regex → Regex → Regex
  | alt : Regex → Regex → Regex
  | star : Regex → Regex
deriving DecidableEq, Repr

/-- Does the regular expression accept the empty string? -/
def nullable : Regex → Bool
  | .empty => false
  | .eps => true
  | .char _ => false
  | .any => false
  | .cat a b => nullable a && nullable b
  | .alt a b => nullable a || nullable b
  | .star _ => true

/-- Brzozowski derivative of a regular expression by one character. -/
def deriv : Regex → Char → Regex
  | .empty, _ => .empty
  | .eps, _ => .empty
  | .char c, d => if c = d then .eps else .empty
  | .any, _ => .eps
  | .cat a b, d =>
      if nullable a then .alt (.cat (deriv a d) b) (deriv b d)
      else .cat (deriv a d) b
  | .alt a b, d => .alt (deriv a d) (deriv b d)
  | .star a, d => .cat (deriv a d) (.star a)

/-- Does the regex match some prefix of the character list? -/
def matchHere : Regex → List Char → Bool
  | r, [] => nullable r
  | r, c :: cs => nullable r || matchHere (deriv r c) cs

/-- Does the regex match a substring starting at any position? -/
def matchAnywhere : Regex → List Char → Bool
  | r, [] => matchHere r []
  | r, c :: cs => matchHere r (c :: cs) || matchAnywhere r cs

/-- Go `Regexp.MatchString`: unanchored match anywhere in the string. -/
def Regex.MatchString (re : Regex) (s : String) : Bool :=
  matchAnywhere re s.data

/-- Consume a run of `*` suffixes after a parsed atom. -/
def stars : Regex → List Char → Regex × List Char
  | r, '*' :: rest => stars (.star r) rest
  | r, rest => (r, rest)

/-- Fuel-indexed recursive-descent parser for the modelled regex subset.
Level 0 parses an alternation, level 1 a (possibly empty) concatenation,
any other level an atom with its `*` suffixes.  Metacharacters outside the
modelled subset are rejected. -/
def parseF : Nat → Nat → List Char → Option (Regex × List Char)
  | 0, _, _ => none
  | fuel + 1, 0, cs =>
      match parseF fuel 1 cs with
      | none => none
      | some (r, rest) =>
          match rest with
          | '|' :: rest2 =>
              match parseF fuel 0 rest2 with
              | none => none
              | some (r2, rest3) => some (.alt r r2, rest3)
          | _ => some (r, rest)
  | fuel + 1, 1, cs =>
      match cs with
      | [] => some (.eps, [])
      | c :: _ =>
          if c = ')' ∨ c = '|' then some (.eps, cs)
          else
            match parseF fuel 2 cs with
            | none => none
            | some (r, rest) =>
                match parseF fuel 1 rest with
                | none => none
                | some (r2, rest2) => some (.cat r r2, rest2)
  | fuel + 1, _, cs =>
      match cs with
      | [] => none
      | '.' :: rest => some (stars .any rest)
      | '(' :: rest =>
          match parseF fuel 0 rest with
          | none => none
          | some (r, rest2) =>
              match rest2 with
              | ')' :: rest3 => some (stars r rest3)
              | _ => none
      | '\\' :: d :: rest => some (stars (.char d) rest)
      | '\\' :: [] => none
      | c :: rest =>
          if c = ')' ∨ c = '|' ∨ c = '*' ∨ c = '+' ∨ c = '?' ∨ c = '[' ∨
              c = ']' ∨ c = '\x7b' ∨ c = '\x7d' ∨ c = '^' ∨ c = '$' then none
          else some (stars (.char c) rest)

/-- Go `regexp.Compile` on the modelled subset: `none` on an invalid pattern. -/
def regexCompile (s : String) : Option Regex :=
  match parseF (4 * s.length + 4) 0 s.data with
  | some (r, []) => some r
  | _ => none

/-! ### Headers: `http.Header` as a map from canonical MIME keys to value lists -/

/-- Is the character a valid header-field token character
(Go `net/textproto` `validHeaderFieldByte`)?  The code list is the token
punctuation `! # $ % & apostrophe * + - . ^ _ backtick | ~` by code point. -/
def validHeaderFieldChar (c : Char) : Bool :=
  c.isAlphanum ||
    [33, 35, 36, 37, 38, 39, 42, 43, 45, 46, 94, 95, 96, 124, 126].contains c.toNat

/-- One pass of Go's canonicalisation loop: uppercase the first letter and
every letter following a `-`, lowercase the rest. -/
def canonicalScan : Bool → List Char → List Char
  | _, [] => []
  | upper, c :: cs =>
      let c2 := if upper then c.toUpper else c.toLower
      c2 :: canonicalScan (c2 = '-') cs

/-- Go `textproto.CanonicalMIMEHeaderKey`: keys holding an invalid character
are returned unchanged, otherwise the case canonicalisation is applied. -/
def canonicalMIMEHeaderKey (s : String) : String :=
  if s.data.all validHeaderFieldChar then String.mk (canonicalScan true s.data)
  else s

/-- `http.Header`, a Go map `map[string][]string`, modelled as an association
list from (canonical) keys to ordered value lists. -/
abbrev Header := List (String × List String)

/-- Raw map lookup: the value list stored under exactly this key. -/
def headerFind : Header → String → Option (List String)
  | [], _ => none
  | e :: t, key => if e.1 = key then some e.2 else headerFind t key

/-- Go map assignment `h[key] = vs`: replace the entry of `key` if present,
otherwise insert it. -/
def mapSet : Header → String → List String → Header
  | [], key, vs => [(key, vs)]
  | e :: t, key, vs => if e.1 = key then (key, vs) :: t else e :: mapSet t key vs

/-- Go map deletion `delete(h, key)`. -/
def mapDelete : Header → String → Header
  | [], _ => []
  | e :: t, key => if e.1 = key then mapDelete t key else e :: mapDelete t key

/-- Go `http.Header.Add` (via `textproto.MIMEHeader.Add`):
`h[CanonicalMIMEHeaderKey(key)] = append(h[...], value)`. -/
def Header.Add (h : Header) (key value : String) : Header :=
  let ck := canonicalMIMEHeaderKey key
  mapSet h ck (((headerFind h ck).getD []) ++ [value])

/-- Go `http.Header.Del` (via `textproto.MIMEHeader.Del`):
`delete(h, CanonicalMIMEHeaderKey(key))`. -/
def Header.Del (h : Header) (key : String) : Header :=
  mapDelete h (canonicalMIMEHeaderKey key)

/-- Go `http.Header.Values`: the ordered values stored under the canonical
form of `key` (empty when absent). -/
def Header.Values (h : Header) (key : String) : List String :=
  (headerFind h (canonicalMIMEHeaderKey key)).getD []

/-! ### URLs: the `net/url` fields the spec names, and `URL.String` -/

/-- `url.URL` restricted to the structured fields the spec names:
scheme, host, path and raw query. -/
structure URL where
  Scheme : String
  Host : String
  Path : String
  RawQuery : String
deriving DecidableEq, Repr

/-- Does the string start with a `/` (Go `path[0] == '/'` on a non-empty
path)? -/
def startsWithSlash (s : String) : Bool :=
  match s.data with
  | '/' :: _ => true
  | _ => false

/-- Go `url.URL.String` restricted to the modelled fields: `scheme:`, then
`//host` whenever `(scheme ≠ "" or host ≠ "") and (host ≠ "" or path ≠ "")`,
then the path (with a `/` inserted before a rootless path when a host is
present), then `?query` when the raw query is non-empty. -/
def URL.String (u : URL) : String :=
  (if u.Scheme = "" then "" else u.Scheme ++ ":") ++
  (if (u.Scheme ≠ "" ∨ u.Host ≠ "") ∧ (u.Host ≠ "" ∨ u.Path ≠ "") then
      "//" ++ u.Host
    else "") ++
  (if u.Path ≠ "" ∧ startsWithSlash u.Path = false ∧ u.Host ≠ "" then "/"
    else "") ++
  u.Path ++
  (if u.RawQuery = "" then "" else "?" ++ u.RawQuery)

/-! ### The `Request` value and the filter combinators (`request.go`) -/

/-- `govcr.Request`: header, body, method and URL.  The header field here is
the header's observable content (the map the request's `http.Header`
reference points at); reference-level sharing is modelled separately by
`RequestRef` and `HeaderStore` below. -/
structure Request where
  Header : govcr.Header
  Body : List Nat
  Method : String
  URL : govcr.URL
deriving DecidableEq, Repr

/-- `govcr.RequestFilter`: `func(req Request) Request`. -/
abbrev RequestFilter := Request → Request

/-- `govcr.RequestFilters`: `[]RequestFilter`. -/
abbrev RequestFilters := List RequestFilter

/-- `RequestFilter.OnMethod`: apply `r` only when the request method matches;
`if req.Method != method { return req }; return r(req)`. -/
def RequestFilter.OnMethod (r : RequestFilter) (method : String) : RequestFilter :=
  fun req => if req.Method ≠ method then req else r req

/-- `RequestFilter.OnPath`: `if pathRegEx == "" { pathRegEx = ".*" }`;
`re := regexp.MustCompile(pathRegEx)` — compilation failure aborts here, at
construction time, modelled as `Except.error`; the returned filter is
`if !re.MatchString(req.URL.String()) { return req }; return r(req)`. -/
def RequestFilter.OnPath (r : RequestFilter) (pathRegEx : String) :
    Except String RequestFilter :=
  match regexCompile (if pathRegEx = "" then ".*" else pathRegEx) with
  | none =>
      Except.error ("regexp: Compile(" ++
        (if pathRegEx = "" then ".*" else pathRegEx) ++ "): error parsing regexp")
  | some re =>
      Except.ok fun req => if re.MatchString req.URL.String then r req else req

/-- `govcr.RequestAddHeaderValue`, value-level view: the header content of the
returned request is the input's content with `Header.Add key value` applied
(`req.Header.Add(key, value); return req`). -/
def RequestAddHeaderValue (key value : String) : RequestFilter :=
  fun req => { req with Header := req.Header.Add key value }

/-- `govcr.RequestDeleteHeaderKeys`, value-level view:
`for _, key := range keys { req.Header.Del(key) }; return req`. -/
def RequestDeleteHeaderKeys (keys : List String) : RequestFilter :=
  fun req =>
    { req with Header := keys.foldl (fun h key => h.Del key) req.Header }

/-- `RequestFilters.Append`: `append(r, filters...)`; the elements of `r` are
never overwritten (Go `append` writes only at indices ≥ `len(r)`), so the
original chain value is unmodified. -/
def RequestFilters.Append (r : RequestFilters) (filters : List RequestFilter) :
    RequestFilters :=
  r ++ filters

/-- `RequestFilters.Add`: `*r = append(*r, filters...)`; the in-place update
is modelled by returning the new value stored into `*r`. -/
def RequestFilters.Add (r : RequestFilters) (filters : List RequestFilter) :
    RequestFilters :=
  r ++ filters

/-- `RequestFilters.Prepend`: allocate a fresh slice, append `filters`, then
the elements of `r`. -/
def RequestFilters.Prepend (r : RequestFilters) (filters : List RequestFilter) :
    RequestFilters :=
  filters ++ r

/-- The loop body of `RequestFilters.combined`:
`for _, filter := range r { req = filter(req) }`. -/
def combinedLoop : List RequestFilter → Request → Request
  | [], req => req
  | f :: fs, req => combinedLoop fs (f req)

/-- `RequestFilters.combined`: the filters of the chain as a single filter. -/
def RequestFilters.combined (r : RequestFilters) : RequestFilter :=
  fun req => combinedLoop r req

/-! ### Reference-level model of the header map

In Go, `http.Header` is a map and therefore a reference type: copying a
`Request` struct copies the reference, not the map, so the filter parameter
`req` and the caller's request share one header map.  `HeaderStore` maps
reference identities to map contents, and the `...Ref` variants of the two
built-in header filters record exactly what the Go bodies do to the store. -/

/-- The heap of header maps, indexed by reference identity. -/
abbrev HeaderStore := Nat → Header

/-- Update the store at one reference. -/
def storeSet (s : HeaderStore) (i : Nat) (h : Header) : HeaderStore :=
  fun j => if j = i then h else s j

/-- A `Request` as Go passes it: the header field is a map reference. -/
structure RequestRef where
  HeaderRef : Nat
  Body : List Nat
  Method : String
  URL : govcr.URL
deriving DecidableEq, Repr

/-- `govcr.RequestAddHeaderValue` under Go reference semantics: the returned
struct is the parameter `req` itself, and `req.Header.Add(key, value)`
mutates the shared map in the store. -/
def RequestAddHeaderValueRef (key value : String) (req : RequestRef)
    (s : HeaderStore) : RequestRef × HeaderStore :=
  (req, storeSet s req.HeaderRef ((s req.HeaderRef).Add key value))

/-- `govcr.RequestDeleteHeaderKeys` under Go reference semantics: the loop of
`req.Header.Del(key)` calls mutates the shared map in the store. -/
def RequestDeleteHeaderKeysRef (keys : List String) (req : RequestRef)
    (s : HeaderStore) : RequestRef × HeaderStore :=
  (req,
    storeSet s req.HeaderRef
      (keys.foldl (fun h key => h.Del key) (s req.HeaderRef)))

/-! ### Spec-side definition for the C2 comparison, and concrete fixtures -/

/-- The guard predicate as the spec's words for claim C2 state it: the URL
path (not the full URL string) matches the pattern.  Used only to compare the
spec's sentence with the code's guard. -/
def specPathMatches (p : String) (req : Request) : Bool :=
  match regexCompile p with
  | some re => re.MatchString req.URL.Path
  | none => false

/-- A concrete URL whose path does not mention its scheme. -/
def c2url : URL :=
  { Scheme := "http", Host := "example.com", Path := "/foo", RawQuery := "" }

/-- A concrete request used by counterexamples and witnesses. -/
def c2x : Request :=
  { Header := [], Body := [], Method := "GET", URL := c2url }

/-- A concrete filter that visibly changes the request it is given. -/
def markFilter : RequestFilter :=
  fun req => { req with Method := req.Method ++ "-filtered" }

/-- The compiled form of the pattern `"ab"` in the regex model. -/
def reAB : Regex := .cat (.char 'a') (.cat (.char 'b') .eps)

/-- The compiled form of the default pattern `".*"` in the regex model. -/
def reAll : Regex := .cat (.star .any) .eps

/-- The guarded filter that `markFilter.OnPath "ab"` constructs. -/
def gAB : RequestFilter :=
  fun req => if reAB.MatchString req.URL.String then markFilter req else req

/-- A concrete filter (sets the method to "A"). -/
def fA : RequestFilter := fun req => { req with Method := "A" }

/-- A concrete filter (sets the method to "B"). -/
def fB : RequestFilter := fun req => { req with Method := "B" }

/-- An empty header store. -/
def store0 : HeaderStore := fun _ => []

/-- A concrete reference-level request pointing at header map 0. -/
def refReq : RequestRef :=
  { HeaderRef := 0, Body := [], Method := "GET", URL := c2url }

/-- A concrete request whose header already holds a value for `X-Token`. -/
def c10req : Request :=
  { Header := [("X-Token", ["a"])], Body := [], Method := "GET", URL := c2url }


/-! ### Helper lemmas -/

/-- Looking up a key right after a Go map assignment to it yields the
assigned value list. -/
theorem headerFind_mapSet_self (h : Header) (key : String) (vs : List String) :
    headerFind (mapSet h key vs) key = some vs := by
  induction h with
  | nil => simp [mapSet, headerFind]
  | cons e t ih =>
      by_cases he : e.1 = key
      · simp [mapSet, he, headerFind]
      · simp [mapSet, he, headerFind, ih]

/-- The compiled default pattern `".*"` matches every string. -/
theorem matchString_reAll (s : String) : reAll.MatchString s = true := by
  cases hs : s.data with
  | nil => simp [Regex.MatchString, hs, matchAnywhere, matchHere, nullable, reAll]
  | cons c cs =>
      simp [Regex.MatchString, hs, matchAnywhere, matchHere, nullable, reAll]

/-- When the (defaulted) pattern compiles, `OnPath` returns the guarded
filter built from the compiled regex. -/
theorem onPath_ok (f : RequestFilter) (p : String) (re : Regex)
    (hc : regexCompile (if p = "" then ".*" else p) = some re) :
    RequestFilter.OnPath f p =
      Except.ok fun req => if re.MatchString req.URL.String then f req else req := by
  unfold RequestFilter.OnPath
  rw [hc]

/-- The loop of `combined` is a left fold over the chain. -/
theorem combinedLoop_eq_foldl (r : List RequestFilter) (x : Request) :
    combinedLoop r x = r.foldl (fun req g => g req) x := by
  induction r generalizing x with
  | nil => rfl
  | cons g gs ih => simp [combinedLoop, List.foldl, ih]

/-! ### Claim theorems -/

/-- C1, counterexample: `RequestAddHeaderValue` does not leave the input
request unchanged.  Applying the filter to `refReq` under an empty header
store changes the header content the input request's header reference points
at (from `[]` to one holding `X-Session`), so the filter has a side effect on
something other than the value it returns. -/
theorem C1_add_header_mutates_input :
    ((RequestAddHeaderValueRef "X-Session" "42" refReq store0).2) refReq.HeaderRef ≠
      store0 refReq.HeaderRef := by
  decide

/-- C1, amended: a built-in header filter returns the request struct value it
was given (so method, URL, body and the header reference are unchanged), but
it mutates the header map shared with the input in place: at the input's
header reference the store now holds the added (resp. deleted) header
content, while every other header map is untouched. -/
theorem C1_header_filters_share_and_mutate_header_map (key value : String)
    (keys : List String) (x : RequestRef) (s : HeaderStore) :
    ((RequestAddHeaderValueRef key value x s).1 = x ∧
      (RequestAddHeaderValueRef key value x s).2 x.HeaderRef =
        (s x.HeaderRef).Add key value ∧
      ∀ j, j ≠ x.HeaderRef → (RequestAddHeaderValueRef key value x s).2 j = s j) ∧
    ((RequestDeleteHeaderKeysRef keys x s).1 = x ∧
      (RequestDeleteHeaderKeysRef keys x s).2 x.HeaderRef =
        keys.foldl (fun h k => h.Del k) (s x.HeaderRef) ∧
      ∀ j, j ≠ x.HeaderRef → (RequestDeleteHeaderKeysRef keys x s).2 j = s j) := by
  constructor
  · refine ⟨rfl, ?_, ?_⟩
    · simp [RequestAddHeaderValueRef, storeSet]
    · intro j hj
      simp [RequestAddHeaderValueRef, storeSet, hj]
  · refine ⟨rfl, ?_, ?_⟩
    · simp [RequestDeleteHeaderKeysRef, storeSet]
    · intro j hj
      simp [RequestDeleteHeaderKeysRef, storeSet, hj]

/-- C1, witness: the amended theorem applied at a concrete request, store and
unrelated reference. -/
theorem C1_header_filters_witness :
    (RequestAddHeaderValueRef "X-Session" "42" refReq store0).1 = refReq ∧
    (RequestAddHeaderValueRef "X-Session" "42" refReq store0).2 1 = store0 1 ∧
    (RequestDeleteHeaderKeysRef ["X-Session"] refReq store0).2 1 = store0 1 :=
  ⟨(C1_header_filters_share_and_mutate_header_map "X-Session" "42" ["X-Session"]
      refReq store0).1.1,
   (C1_header_filters_share_and_mutate_header_map "X-Session" "42" ["X-Session"]
      refReq store0).1.2.2 1 (by decide),
   (C1_header_filters_share_and_mutate_header_map "X-Session" "42" ["X-Session"]
      refReq store0).2.2.2 1 (by decide)⟩

/-- C2, counterexample: the out-of-the-box guard is not a URL-path match.
For the pattern `"http"` and a request whose URL is
`http://example.com/foo`, the path `/foo` does not match the pattern, yet
`OnPath` applies the wrapped filter and returns a changed request, because
the code matches the pattern against the full URL string. -/
theorem C2_guard_uses_full_url_not_path :
    specPathMatches "http" c2x = false ∧
    (RequestFilter.OnPath markFilter "http").map (fun g => g c2x) =
      Except.ok (markFilter c2x) ∧
    markFilter c2x ≠ c2x :=
  ⟨by decide, rfl, by decide⟩

/-- C2, amended: for every filter `f`, non-empty pattern `p` that compiles to
`re`, and request `x`, the guarded filter `f.OnPath p` returns `f x` exactly
when the full URL string of `x` (Go `req.URL.String()`) matches `p`, and
returns `x` unchanged otherwise. -/
theorem C2_on_path_guards_on_url_string (f : RequestFilter) (p : String)
    (re : Regex) (x : Request) (hp : p ≠ "") (hc : regexCompile p = some re) :
    (RequestFilter.OnPath f p).map (fun g => g x) =
      Except.ok (if re.MatchString x.URL.String then f x else x) := by
  have h2 : regexCompile (if p = "" then ".*" else p) = some re := by
    rw [if_neg hp]
    exact hc
  rw [onPath_ok f p re h2]
  rfl

/-- C2, witness: the amended theorem applied to the pattern `"ab"` and a
concrete filter and request. -/
theorem C2_on_path_guard_witness :
    (RequestFilter.OnPath markFilter "ab").map (fun g => g c2x) =
      Except.ok (if reAB.MatchString c2x.URL.String then markFilter c2x else c2x) :=
  C2_on_path_guards_on_url_string markFilter "ab" reAB c2x (by decide) (by decide)

/-- C3 (confirmed): `f.OnMethod m` returns exactly `f x` when the request
method equals `m`, and returns `x` unchanged when it does not. -/
theorem C3_on_method_guard (f : RequestFilter) (m : String) (x : Request) :
    (x.Method = m → RequestFilter.OnMethod f m x = f x) ∧
    (x.Method ≠ m → RequestFilter.OnMethod f m x = x) := by
  constructor
  · intro h
    simp [RequestFilter.OnMethod, h]
  · intro h
    simp [RequestFilter.OnMethod, h]

/-- C3, witness: a method-guarded filter at a concrete `GET` request, with a
matching and a non-matching guard method. -/
theorem C3_on_method_guard_witness :
    RequestFilter.OnMethod markFilter "GET" c2x = markFilter c2x ∧
    RequestFilter.OnMethod markFilter "POST" c2x = c2x :=
  ⟨(C3_on_method_guard markFilter "GET" c2x).1 rfl,
   (C3_on_method_guard markFilter "POST" c2x).2 (by decide)⟩

/-- C4 (confirmed): the empty filter chain combined is the identity,
`RequestFilters(nil).combined()(x) == x`. -/
theorem C4_empty_chain_is_identity (x : Request) :
    RequestFilters.combined ([] : RequestFilters) x = x := rfl

/-- C5 (confirmed): `combined` folds the request through each filter of the
chain in sequence order (a left fold), each filter seeing the output of the
previous one (`combined (f :: r) x = combined r (f x)`). -/
theorem C5_combined_folds_in_sequence_order (r : RequestFilters)
    (f : RequestFilter) (x : Request) :
    RequestFilters.combined r x = r.foldl (fun req g => g req) x ∧
    RequestFilters.combined (f :: r) x = RequestFilters.combined r (f x) :=
  ⟨combinedLoop_eq_foldl r x, rfl⟩

/-- C6 (confirmed): with an empty pattern, `OnPath` defaults to `".*"`, which
matches every URL string, so the guarded filter behaves exactly like the
unguarded filter on every request. -/
theorem C6_empty_pattern_matches_all (f : RequestFilter) (x : Request) :
    (RequestFilter.OnPath f "").map (fun g => g x) = Except.ok (f x) := by
  rw [onPath_ok f "" reAll (by decide)]
  simp [Except.map, matchString_reAll]

/-- C7 (confirmed): `r.Append fs` is a chain holding the elements of `r`
first, then those of `fs`, in order; the original chain value `r` is not
modified (Go `append` writes only past `len(r)`, and the value model keeps
`r` intact). -/
theorem C7_append_elements (r : RequestFilters) (fs : List RequestFilter) :
    (RequestFilters.Append r fs).length = r.length + fs.length ∧
    (∀ i, i < r.length → (RequestFilters.Append r fs).get? i = r.get? i) ∧
    (∀ j, (RequestFilters.Append r fs).get? (r.length + j) = fs.get? j) := by
  refine ⟨by simp [RequestFilters.Append], fun i hi => ?_, fun j => ?_⟩
  · rw [RequestFilters.Append]
    exact List.get?_append hi
  · rw [RequestFilters.Append, List.get?_append_right (Nat.le_add_right _ _)]
    congr 1
    omega

/-- C7, witness: appending one filter to a one-element chain at concrete
indices. -/
theorem C7_append_witness :
    (RequestFilters.Append [fA] [fB]).get? 0 = [fA].get? 0 ∧
    (RequestFilters.Append [fA] [fB]).get? ([fA].length + 0) = [fB].get? 0 :=
  ⟨(C7_append_elements [fA] [fB]).2.1 0 (by decide),
   (C7_append_elements [fA] [fB]).2.2 0⟩

/-- C8 (confirmed): `r.Prepend fs` is a new chain holding the elements of
`fs` first, then those of `r`, in their original order; `r` itself is not
modified (the result is built in a freshly allocated slice). -/
theorem C8_prepend_elements (r : RequestFilters) (fs : List RequestFilter) :
    (RequestFilters.Prepend r fs).length = fs.length + r.length ∧
    (∀ j, j < fs.length → (RequestFilters.Prepend r fs).get? j = fs.get? j) ∧
    (∀ i, (RequestFilters.Prepend r fs).get? (fs.length + i) = r.get? i) := by
  refine ⟨by simp [RequestFilters.Prepend], fun j hj => ?_, fun i => ?_⟩
  · rw [RequestFilters.Prepend]
    exact List.get?_append hj
  · rw [RequestFilters.Prepend, List.get?_append_right (Nat.le_add_right _ _)]
    congr 1
    omega

/-- C8, witness: prepending one filter to a one-element chain at concrete
indices. -/
theorem C8_prepend_witness :
    (RequestFilters.Prepend [fA] [fB]).get? 0 = [fB].get? 0 ∧
    (RequestFilters.Prepend [fA] [fB]).get? ([fB].length + 0) = [fA].get? 0 :=
  ⟨(C8_prepend_elements [fA] [fB]).2.1 0 (by decide),
   (C8_prepend_elements [fA] [fB]).2.2 0⟩

/-- C9 (confirmed): when the (defaulted) pattern does not compile, `OnPath`
aborts at filter-construction time with the compile error and never returns a
filter (the model of `regexp.MustCompile`'s abort); and a successfully
constructed guarded filter never fails on application — on every request it
returns either the wrapped filter's result or the request unchanged. -/
theorem C9_invalid_pattern_fails_at_construction (f : RequestFilter)
    (p : String) (g : RequestFilter) (x : Request) :
    (regexCompile (if p = "" then ".*" else p) = none →
      RequestFilter.OnPath f p =
        Except.error ("regexp: Compile(" ++ (if p = "" then ".*" else p) ++
          "): error parsing regexp")) ∧
    (RequestFilter.OnPath f p = Except.ok g → g x = f x ∨ g x = x) := by
  constructor
  · intro hn
    unfold RequestFilter.OnPath
    rw [hn]
  · intro hok
    unfold RequestFilter.OnPath at hok
    cases hc : regexCompile (if p = "" then ".*" else p) with
    | none =>
        rw [hc] at hok
        exact absurd hok (by simp)
    | some re =>
        rw [hc] at hok
        have hg := Except.ok.inj hok
        subst hg
        by_cases hm : re.MatchString x.URL.String = true
        · left
          simp [hm]
        · right
          simp [hm]

/-- C9, witness: the unbalanced pattern `"("` fails at construction with the
compile error, and the successfully constructed guard for `"ab"` returns one
of the two legitimate outcomes at a concrete request. -/
theorem C9_construction_witness :
    RequestFilter.OnPath markFilter "(" =
      Except.error "regexp: Compile((): error parsing regexp" ∧
    (gAB c2x = markFilter c2x ∨ gAB c2x = c2x) :=
  ⟨(C9_invalid_pattern_fails_at_construction markFilter "(" gAB c2x).1 (by decide),
   (C9_invalid_pattern_fails_at_construction markFilter "ab" gAB c2x).2 rfl⟩

/-- C10 (confirmed): when the request header already holds values for key
`k`, `RequestAddHeaderValue k v` appends `v` after the existing ordered
values of the (canonical) key in the returned request's header, keeping every
value already present. -/
theorem C10_add_header_appends_value (k v : String) (x : Request)
    (_h : x.Header.Values k ≠ []) :
    (RequestAddHeaderValue k v x).Header.Values k = x.Header.Values k ++ [v] := by
  simp only [RequestAddHeaderValue, Header.Values, Header.Add]
  rw [headerFind_mapSet_self]
  simp

/-- C10, witness: adding to a key already present (under case-insensitive
canonicalisation: `x-token` and `X-Token` are the same key). -/
theorem C10_add_header_witness :
    (RequestAddHeaderValue "x-token" "b" c10req).Header.Values "x-token" =
      c10req.Header.Values "x-token" ++ ["b"] :=
  C10_add_header_appends_value "x-token" "b" c10req (by decide)

end govcr
